import Mathlib

/-!
A shallow embedding of the lockstep tick-relay implemented in `src/ffi.js`.

The file holds two variants of the same miniquad plugin.  Both share the
round state (`tick_data`, `current_tick_index`), the future-tick guard and
lazy slot creation in `send_tick_data`, and the periodic `server_loop` that
checks slot completeness (`Object.keys(tick).length >= guests.length`),
fans out per-guest payloads and advances the cursor.  They differ in:
  - variant 1 has no duplicate guard in `send_tick_data` (a second
    submission for the same (tick, guest) overwrites the first) and
    delivers the payload via `receive_tick`;
  - variant 2 guards duplicates ("we do not want players changing their
    historical record"), registers guests through `send_game`
    (sequential, registry-length based ids), but its `start_round`
    assigns every guest the id `client_id_to_gameptr_map.length` (the
    same value for all guests) and its `receive_tick` call is commented
    out (replaced by `console.log`).

Machine bytes are modelled as `Nat` (the JS values are u8 reads out of a
`Uint8Array`; no arithmetic is performed on them, so no wraparound arises).
-/

/-- A tick slot models the JS object `tick_data[t]`: a map from guest id to
the submitted intent bytes, as an association list with unique keys. -/
abbrev Slot := List (Nat × List Nat)

/-- JS property read `s[gid]`: the binding for the key, if any. -/
def objLookup (s : Slot) (gid : Nat) : Option (List Nat) :=
  (s.find? (fun e => e.1 == gid)).map Prod.snd

/-- JS `gid in s`: whether the key is present. -/
def objHas (s : Slot) (gid : Nat) : Bool :=
  s.any (fun e => e.1 == gid)

/-- JS property write `s[gid] = v`: replace the value at an existing key,
otherwise add a new binding. -/
def objSet (s : Slot) (gid : Nat) (v : List Nat) : Slot :=
  if objHas s gid then s.map (fun e => if e.1 == gid then (e.1, v) else e)
  else s ++ [(gid, v)]

/-- The tick buffer models the JS array `tick_data`; `none` is an array
hole (an index below the length with no own property). -/
abbrev TickData := List (Option Slot)

/-- JS array element write `a[i] = v`: in-range indices are overwritten; a
write at or past the length extends the array, filling skipped indices
with holes. -/
def jsArraySet (a : TickData) (i : Nat) (v : Slot) : TickData :=
  if i < a.length then a.set i (some v)
  else a ++ List.replicate (i - a.length) none ++ [some v]

/-- The slot at index `t`, when `t in tick_data` holds in JS (index in
range and not a hole). -/
def slotAt (td : TickData) (t : Nat) : Option Slot :=
  (td.get? t).join

/-- The intent bytes recorded for guest `gid` at tick `t`, if any. -/
def recordedIntent (td : TickData) (t gid : Nat) : Option (List Nat) :=
  (slotAt td t).bind (fun s => objLookup s gid)

/-- The function `send_tick_data` of the first variant: ticks past the buffer length are
dropped, a submission at the current length materializes an empty slot
first, and the intent bytes are stored under the id of the guest with no
duplicate guard (overwriting any earlier entry).  `gid` is the submitting
id the guest holds at call time (the variant assigns `next_guest_id` to id-less
guests before these steps).  The fallthrough `_` case is the JS expression
`tick_data[tick_index][guest.id]` hitting an array hole, which cannot
happen in any state reachable from round start (proved below). -/
def send_tick_data_v1 (td : TickData) (gid tick : Nat) (bytes : List Nat) : TickData :=
  if tick > td.length then td
  else
    let td1 := if tick == td.length then jsArraySet td tick [] else td
    match td1.get? tick with
    | some (some s) => td1.set tick (some (objSet s gid bytes))
    | _ => td1

/-- The function `send_tick_data` of the second variant: same as the first, except that
a submission whose (tick, guest) pair already has an entry is dropped
before the store ("we do not want players changing their historical
record"). -/
def send_tick_data_v2 (td : TickData) (gid tick : Nat) (bytes : List Nat) : TickData :=
  if tick > td.length then td
  else
    let td1 := if tick == td.length then jsArraySet td tick [] else td
    match td1.get? tick with
    | some (some s) =>
      if objHas s gid then td1
      else td1.set tick (some (objSet s gid bytes))
    | _ => td1

/-- The three bytes copied per other guest at dispatch:
`tick[id][k] ?? 0` for k = 0, 1, 2 (out-of-range `Uint8Array` reads give
`undefined`, which `?? 0` turns into 0). -/
def pad3 (b : List Nat) : List Nat :=
  [b.getD 0 0, b.getD 1 0, b.getD 2 0]

/-- The ids written to the `wasm_players` buffer for receiving guest `i`:
every loop index `j` except `i`, in ascending order (the code writes the
loop index `j`; after `start_round` of variant 1, guest `j` has id `j`). -/
def otherIds (n i : Nat) : List Nat :=
  (List.range n).filter (fun j => j != i)

/-- The `wasm_intents` buffer delivered to receiving guest `i`: for each
other guest in ascending order, the three bytes `tick[id][k] ?? 0`.
A missing entry is modelled as no bytes (`[]`, padded to three zero bytes);
in JS `tick[id]` would be `undefined` and the read would throw, but a
completed slot reached by registered guests only has all entries. -/
def dispatchIntents (s : Slot) (n i : Nat) : List Nat :=
  (otherIds n i).flatMap (fun j => pad3 ((objLookup s j).getD []))

/-- The round state shared by both variants: the tick buffer and the
cursor `current_tick_index`. -/
structure RelayState where
  tickData : TickData
  cursor : Nat
deriving Repr, DecidableEq

/-- The dispatched payload of one guest: (`wasm_players`, `wasm_intents`). -/
abbrev Payload := List Nat × List Nat

/-- The completeness test of the scheduler at index `t`:
`t in tick_data` and `Object.keys(tick).length >= n`. -/
def isCompleteAt (n : Nat) (td : TickData) (t : Nat) : Bool :=
  match slotAt td t with
  | some s => n ≤ s.length
  | none => false

/-- One firing of the `server_loop` interval callback for `n` guests.  Both
variants compute the same buffer/cursor behavior and the same payloads
(variant 1 hands each payload to the receive_tick of the guest; variant 2
logs it, its `receive_tick` call being commented out).  Returns the new
state and, when the current slot is complete, the per-guest payloads. -/
def serverStep (n : Nat) (st : RelayState) : RelayState × Option (List Payload) :=
  match slotAt st.tickData st.cursor with
  | some tick =>
    if n ≤ tick.length then
      (⟨st.tickData, st.cursor + 1⟩,
       some ((List.range n).map (fun i => (otherIds n i, dispatchIntents tick n i))))
    else (st, none)
  | none => (st, none)

/-- The `start_round` state reset, common to both variants:
`tick_data = []; current_tick_index = 0`. -/
def startRoundState : RelayState := ⟨[], 0⟩

/-- The ids `start_round` of the first variant assigns:
`guests[i].id = i`. -/
def startRoundIdsV1 (n : Nat) : List Nat := List.range n

/-- The ids `start_round` of the second variant assigns: every guest gets
`client_id_to_gameptr_map.length`, which does not change inside the
loop, so all `n` guests receive the same id `mapLen`. -/
def startRoundIdsV2 (n mapLen : Nat) : List Nat := List.replicate n mapLen

/-- The function `send_game` of the second variant: the guest id is the registry length
before the game pointer is pushed. -/
def send_game (map : List Nat) (gamePtr : Nat) : Nat × List Nat :=
  (map.length, map ++ [gamePtr])

/-- A variant-1 submission, as a transition on the round state (the JS
function never touches `current_tick_index`). -/
def submitV1 (st : RelayState) (gid tick : Nat) (bytes : List Nat) : RelayState :=
  ⟨send_tick_data_v1 st.tickData gid tick bytes, st.cursor⟩

/-- A variant-2 submission, as a transition on the round state. -/
def submitV2 (st : RelayState) (gid tick : Nat) (bytes : List Nat) : RelayState :=
  ⟨send_tick_data_v2 st.tickData gid tick bytes, st.cursor⟩

/-- The transitions the relay state can take after round start: a
submission by either variant (from any guest id, as the code checks none)
or a scheduler firing. -/
inductive RStep : RelayState → RelayState → Prop
| submit1 (st : RelayState) (gid tick : Nat) (bytes : List Nat) :
    RStep st (submitV1 st gid tick bytes)
| submit2 (st : RelayState) (gid tick : Nat) (bytes : List Nat) :
    RStep st (submitV2 st gid tick bytes)
| sched (st : RelayState) (n : Nat) : RStep st (serverStep n st).1

/-- States reachable from round start. -/
inductive Reachable : RelayState → Prop
| init : Reachable startRoundState
| step {st st2 : RelayState} : Reachable st → RStep st st2 → Reachable st2

/-- C1: with 2 registered guests (ids 0 and 1) at tick 0, after guest 0
submits [1,0,0] and guest 1 submits [0,1,0], the next scheduler check
dispatches to guest 0 the payload other_ids = [1], other_intents =
[0,1,0] and to guest 1 the payload other_ids = [0], other_intents =
[1,0,0], and the cursor advances from 0 to 1. -/
theorem c1_lockstep_scenario :
    serverStep 2 (submitV1 (submitV1 startRoundState 0 0 [1, 0, 0]) 1 0 [0, 1, 0]) =
      (⟨[some [(0, [1, 0, 0]), (1, [0, 1, 0])]], 1⟩,
       some [([1], [0, 1, 0]), ([0], [1, 0, 0])]) := by
  decide

/-! ### Helper lemmas about the JS object model -/

theorem objLookup_nil (gid : Nat) : objLookup [] gid = none := rfl

theorem objLookup_cons (e : Nat × List Nat) (s : Slot) (gid : Nat) :
    objLookup (e :: s) gid =
      if e.1 == gid then some e.2 else objLookup s gid := by
  by_cases h : (e.1 == gid) = true <;> simp [objLookup, List.find?, h]

theorem objHas_cons (e : Nat × List Nat) (s : Slot) (gid : Nat) :
    objHas (e :: s) gid = ((e.1 == gid) || objHas s gid) := by
  simp [objHas]

theorem objHas_of_objLookup (s : Slot) (gid : Nat) (b : List Nat)
    (h : objLookup s gid = some b) : objHas s gid = true := by
  induction s with
  | nil => simp [objLookup, List.find?] at h
  | cons e rest ih =>
    rw [objLookup_cons] at h
    rw [objHas_cons]
    by_cases he : (e.1 == gid) = true
    · simp [he]
    · simp [he] at h ⊢
      exact ih h

theorem objLookup_map_replace (s : Slot) (gid : Nat) (v : List Nat)
    (h : objHas s gid = true) :
    objLookup (s.map (fun e => if e.1 == gid then (e.1, v) else e)) gid = some v := by
  induction s with
  | nil => simp [objHas] at h
  | cons e rest ih =>
    simp only [List.map_cons]
    by_cases he : (e.1 == gid) = true
    · rw [if_pos he, objLookup_cons]
      simp [he]
    · rw [objHas_cons] at h
      simp only [he, Bool.false_or] at h
      rw [if_neg (by simp [he]), objLookup_cons, if_neg (by simp [he])]
      exact ih h

theorem objLookup_append_single (s : Slot) (gid : Nat) (v : List Nat)
    (h : objHas s gid = false) :
    objLookup (s ++ [(gid, v)]) gid = some v := by
  induction s with
  | nil => simp [objLookup, List.find?]
  | cons e rest ih =>
    rw [objHas_cons] at h
    simp only [Bool.or_eq_false_iff] at h
    rw [List.cons_append, objLookup_cons, if_neg (by simp [h.1])]
    exact ih h.2

theorem objLookup_objSet_self (s : Slot) (gid : Nat) (v : List Nat) :
    objLookup (objSet s gid v) gid = some v := by
  unfold objSet
  by_cases h : objHas s gid = true
  · rw [if_pos h]
    exact objLookup_map_replace s gid v h
  · rw [if_neg h]
    exact objLookup_append_single s gid v (by simpa using h)

theorem objLookup_map_replace_ne (s : Slot) (g j : Nat) (v : List Nat) (h : j ≠ g) :
    objLookup (s.map (fun e => if e.1 == g then (e.1, v) else e)) j = objLookup s j := by
  induction s with
  | nil => rfl
  | cons e rest ih =>
    simp only [List.map_cons]
    by_cases hg : (e.1 == g) = true
    · have hj : (e.1 == j) = false := by
        rw [beq_iff_eq.mp hg]
        exact beq_eq_false_iff_ne.mpr (Ne.symm h)
      rw [if_pos hg, objLookup_cons, objLookup_cons]
      simp only [hj]
      simp only [Bool.false_eq_true, if_false]
      exact ih
    · rw [if_neg (by simp [hg]), objLookup_cons, objLookup_cons]
      by_cases hej : (e.1 == j) = true
      · simp [hej]
      · simp only [hej, Bool.false_eq_true, if_false]
        exact ih

theorem objLookup_append_ne (s : Slot) (g j : Nat) (v : List Nat) (h : j ≠ g) :
    objLookup (s ++ [(g, v)]) j = objLookup s j := by
  induction s with
  | nil =>
    simp only [List.nil_append, objLookup_nil]
    rw [objLookup_cons]
    have hg : (g == j) = false := beq_eq_false_iff_ne.mpr (Ne.symm h)
    simp [hg, objLookup_nil]
  | cons e rest ih =>
    rw [List.cons_append, objLookup_cons, objLookup_cons]
    by_cases he : (e.1 == j) = true <;> simp [he, ih]

theorem objLookup_objSet_ne (s : Slot) (g j : Nat) (v : List Nat) (h : j ≠ g) :
    objLookup (objSet s g v) j = objLookup s j := by
  unfold objSet
  by_cases hg : objHas s g = true
  · rw [if_pos hg]
    exact objLookup_map_replace_ne s g j v h
  · rw [if_neg hg]
    exact objLookup_append_ne s g j v h

theorem slotAt_set_self (td : TickData) (t : Nat) (s : Slot) (h : t < td.length) :
    slotAt (td.set t (some s)) t = some s := by
  unfold slotAt
  rw [List.get?_set_eq_of_lt _ h]
  rfl

theorem slotAt_some_get (td : TickData) (t : Nat) (s : Slot)
    (h : slotAt td t = some s) : td.get? t = some (some s) := by
  unfold slotAt at h
  cases hg : td.get? t with
  | none => rw [hg] at h; simp at h
  | some o =>
    rw [hg] at h
    simp [Option.join] at h
    rw [h]

theorem slotAt_some_lt (td : TickData) (t : Nat) (s : Slot)
    (h : slotAt td t = some s) : t < td.length := by
  by_contra hc
  have := slotAt_some_get td t s h
  rw [List.get?_eq_none.mpr (Nat.le_of_not_lt hc)] at this
  cases this

theorem recordedIntent_some_elim (td : TickData) (t gid : Nat) (b : List Nat)
    (h : recordedIntent td t gid = some b) :
    ∃ s, slotAt td t = some s ∧ objLookup s gid = some b := by
  unfold recordedIntent at h
  cases hs : slotAt td t with
  | none => rw [hs] at h; cases h
  | some s =>
    rw [hs] at h
    exact ⟨s, rfl, h⟩

/-! ### Structure lemmas for `send_tick_data` -/

theorem send_tick_data_v1_future (td : TickData) (gid t : Nat) (b : List Nat)
    (h : t > td.length) : send_tick_data_v1 td gid t b = td := by
  unfold send_tick_data_v1
  rw [if_pos h]

theorem send_tick_data_v2_future (td : TickData) (gid t : Nat) (b : List Nat)
    (h : t > td.length) : send_tick_data_v2 td gid t b = td := by
  unfold send_tick_data_v2
  rw [if_pos h]

theorem set_append_length (td : TickData) (x y : Option Slot) :
    (td ++ [x]).set td.length y = td ++ [y] := by
  induction td with
  | nil => rfl
  | cons a l ih => simp [List.set, ih]

theorem send_tick_data_v1_append (td : TickData) (gid : Nat) (b : List Nat) :
    send_tick_data_v1 td gid td.length b = td ++ [some (objSet [] gid b)] := by
  unfold send_tick_data_v1
  rw [if_neg (by omega)]
  have he : (td.length == td.length) = true := beq_self_eq_true td.length
  simp only [he, if_true]
  unfold jsArraySet
  rw [if_neg (by omega)]
  simp only [Nat.sub_self, List.replicate_zero, List.nil_append, List.append_nil]
  rw [List.get?_concat_length]
  exact set_append_length td (some []) (some (objSet [] gid b))

theorem send_tick_data_v2_append (td : TickData) (gid : Nat) (b : List Nat) :
    send_tick_data_v2 td gid td.length b = td ++ [some (objSet [] gid b)] := by
  unfold send_tick_data_v2
  rw [if_neg (by omega)]
  have he : (td.length == td.length) = true := beq_self_eq_true td.length
  simp only [he, if_true]
  unfold jsArraySet
  rw [if_neg (by omega)]
  simp only [Nat.sub_self, List.replicate_zero, List.nil_append, List.append_nil]
  rw [List.get?_concat_length]
  have : objHas [] gid = false := rfl
  simp only [this, Bool.false_eq_true, if_false]
  exact set_append_length td (some []) (some (objSet [] gid b))

theorem send_tick_data_v1_existing (td : TickData) (gid t : Nat) (b : List Nat) (s : Slot)
    (h : slotAt td t = some s) :
    send_tick_data_v1 td gid t b = td.set t (some (objSet s gid b)) := by
  have hget := slotAt_some_get td t s h
  have hlt := slotAt_some_lt td t s h
  unfold send_tick_data_v1
  rw [if_neg (by omega)]
  have hne : (t == td.length) = false := beq_eq_false_iff_ne.mpr (Nat.ne_of_lt hlt)
  simp only [hne, Bool.false_eq_true, if_false, hget]

theorem send_tick_data_v2_existing_dup (td : TickData) (gid t : Nat) (b : List Nat) (s : Slot)
    (h : slotAt td t = some s) (hhas : objHas s gid = true) :
    send_tick_data_v2 td gid t b = td := by
  have hget := slotAt_some_get td t s h
  have hlt := slotAt_some_lt td t s h
  unfold send_tick_data_v2
  rw [if_neg (by omega)]
  have hne : (t == td.length) = false := beq_eq_false_iff_ne.mpr (Nat.ne_of_lt hlt)
  simp only [hne, Bool.false_eq_true, if_false, hget, hhas, if_true]

theorem send_tick_data_v2_existing_new (td : TickData) (gid t : Nat) (b : List Nat) (s : Slot)
    (h : slotAt td t = some s) (hhas : objHas s gid = false) :
    send_tick_data_v2 td gid t b = td.set t (some (objSet s gid b)) := by
  have hget := slotAt_some_get td t s h
  have hlt := slotAt_some_lt td t s h
  unfold send_tick_data_v2
  rw [if_neg (by omega)]
  have hne : (t == td.length) = false := beq_eq_false_iff_ne.mpr (Nat.ne_of_lt hlt)
  simp only [hne, Bool.false_eq_true, if_false, hget, hhas]

/-- C2 (counterexample): with 1 registered guest, a slot holding 2 entries
(one from the registered guest with id 0, one from a guest with id 1 that
is not among the `guests` passed to `start_round`) is reported complete
and dispatched, even though it holds more entries than registered
participants: the check is `>=`, not an exact count. -/
theorem c2_complete_with_more_entries :
    isCompleteAt 1 (send_tick_data_v1 (send_tick_data_v1 [] 0 0 [1]) 1 0 [2]) 0 = true ∧
    (slotAt (send_tick_data_v1 (send_tick_data_v1 [] 0 0 [1]) 1 0 [2]) 0).map List.length =
      some 2 ∧
    (serverStep 1 ⟨send_tick_data_v1 (send_tick_data_v1 [] 0 0 [1]) 1 0 [2], 0⟩).1.cursor = 1 ∧
    (serverStep 1 ⟨send_tick_data_v1 (send_tick_data_v1 [] 0 0 [1]) 1 0 [2], 0⟩).2.isSome =
      true := by
  decide

/-- C2 (amended): the scheduler dispatches at the cursor exactly when the
slot there is reported complete, and a slot is reported complete iff it
exists and holds at least `n` entries (`Object.keys(tick).length >=
guests.length`) — with only registered participants submitting this
coincides with exactly one entry per participant, but a slot holding more
entries than registered participants is also reported complete. -/
theorem c2_completeness_is_at_least (n : Nat) (st : RelayState) :
    ((serverStep n st).2.isSome = isCompleteAt n st.tickData st.cursor) ∧
    (isCompleteAt n st.tickData st.cursor = true ↔
      ∃ s, slotAt st.tickData st.cursor = some s ∧ n ≤ s.length) := by
  unfold serverStep isCompleteAt
  cases h : slotAt st.tickData st.cursor with
  | none => simp
  | some s =>
    by_cases hn : n ≤ s.length
    · simp [hn]
    · simp [hn]

/-- C3 (counterexample): in the first variant a second submission for the
same (tick, guest) pair is not dropped — it overwrites the first, so the
recorded intent is the second payload, not the first. -/
theorem c3_second_submission_overwrites :
    recordedIntent (send_tick_data_v1 (send_tick_data_v1 [] 0 0 [1, 2, 3]) 0 0 [9, 9, 9]) 0 0 =
      some [9, 9, 9] ∧
    recordedIntent (send_tick_data_v1 (send_tick_data_v1 [] 0 0 [1, 2, 3]) 0 0 [9, 9, 9]) 0 0 ≠
      some [1, 2, 3] := by
  decide

/-- C3 (amended): first writer wins only in the second variant — if an
intent is already recorded for (t, gid), a variant-2 submission leaves the
whole buffer unchanged (so the recorded intent stays the first payload) —
while in the first variant, which has no duplicate guard, the later
submission overwrites the record (last writer wins). -/
theorem c3_first_writer_v2_last_writer_v1 (td : TickData) (gid t : Nat) (b1 b2 : List Nat)
    (h : recordedIntent td t gid = some b1) :
    send_tick_data_v2 td gid t b2 = td ∧
    recordedIntent (send_tick_data_v2 td gid t b2) t gid = some b1 ∧
    recordedIntent (send_tick_data_v1 td gid t b2) t gid = some b2 := by
  obtain ⟨s, hs, hl⟩ := recordedIntent_some_elim td t gid b1 h
  have hhas := objHas_of_objLookup s gid b1 hl
  have h2 := send_tick_data_v2_existing_dup td gid t b2 s hs hhas
  refine ⟨h2, ?_, ?_⟩
  · rw [h2]
    exact h
  · rw [send_tick_data_v1_existing td gid t b2 s hs]
    unfold recordedIntent
    rw [slotAt_set_self _ _ _ (slotAt_some_lt td t s hs)]
    simp [objLookup_objSet_self]

/-- Witness for the amended C3 at a concrete input. -/
theorem c3_first_writer_v2_last_writer_v1_witness :
    recordedIntent (send_tick_data_v1 [] 0 0 [1, 2, 3]) 0 0 = some [1, 2, 3] ∧
    send_tick_data_v2 (send_tick_data_v1 [] 0 0 [1, 2, 3]) 0 0 [9, 9, 9] =
      send_tick_data_v1 [] 0 0 [1, 2, 3] ∧
    recordedIntent
      (send_tick_data_v2 (send_tick_data_v1 [] 0 0 [1, 2, 3]) 0 0 [9, 9, 9]) 0 0 =
      some [1, 2, 3] ∧
    recordedIntent
      (send_tick_data_v1 (send_tick_data_v1 [] 0 0 [1, 2, 3]) 0 0 [9, 9, 9]) 0 0 =
      some [9, 9, 9] := by
  have h := c3_first_writer_v2_last_writer_v1 (send_tick_data_v1 [] 0 0 [1, 2, 3])
    0 0 [1, 2, 3] [9, 9, 9] (by decide)
  exact ⟨by decide, h.1, h.2.1, h.2.2⟩

/-- C5: a submission whose tick index is strictly greater than the buffer
length is dropped entirely (no slot is created, nothing recorded, the
buffer is unchanged), and a submission whose tick index equals the buffer
length appends exactly one new slot, freshly created empty and then
holding only the new entry — in both variants. -/
theorem c5_future_tick_policy (td : TickData) (gid t : Nat) (b : List Nat) :
    (t > td.length →
      send_tick_data_v1 td gid t b = td ∧ send_tick_data_v2 td gid t b = td) ∧
    (t = td.length →
      send_tick_data_v1 td gid t b = td ++ [some (objSet [] gid b)] ∧
      send_tick_data_v2 td gid t b = td ++ [some (objSet [] gid b)]) := by
  constructor
  · intro h
    exact ⟨send_tick_data_v1_future td gid t b h, send_tick_data_v2_future td gid t b h⟩
  · intro h
    subst h
    exact ⟨send_tick_data_v1_append td gid b, send_tick_data_v2_append td gid b⟩

/-- Witness for C5 at concrete inputs: tick index length + 2 is dropped,
and tick index equal to the length materializes the slot. -/
theorem c5_future_tick_policy_witness :
    send_tick_data_v1 [] 0 2 [1, 2, 3] = ([] : TickData) ∧
    send_tick_data_v2 [] 0 2 [1, 2, 3] = ([] : TickData) ∧
    send_tick_data_v1 [] 0 0 [1, 2, 3] = [some [(0, [1, 2, 3])]] := by
  refine ⟨((c5_future_tick_policy [] 0 2 [1, 2, 3]).1 (by decide)).1,
    ((c5_future_tick_policy [] 0 2 [1, 2, 3]).1 (by decide)).2, ?_⟩
  have h := ((c5_future_tick_policy [] 0 0 [1, 2, 3]).2 rfl).1
  exact h.trans (by decide)

/-- C6: one scheduler firing never changes the buffer; it advances the
cursor by exactly one when the slot at the cursor is complete and leaves
it unchanged (dispatching nothing) otherwise; submissions of either
variant never change the cursor; and round start resets it to 0. -/
theorem c6_cursor_monotonic (n : Nat) (st : RelayState) (gid t : Nat) (b : List Nat) :
    (serverStep n st).1.tickData = st.tickData ∧
    (serverStep n st).1.cursor =
      (if isCompleteAt n st.tickData st.cursor then st.cursor + 1 else st.cursor) ∧
    ((serverStep n st).2 = none ↔ isCompleteAt n st.tickData st.cursor = false) ∧
    (submitV1 st gid t b).cursor = st.cursor ∧
    (submitV2 st gid t b).cursor = st.cursor ∧
    startRoundState.cursor = 0 := by
  refine ⟨?_, ?_, ?_, rfl, rfl, rfl⟩ <;>
  · cases h : slotAt st.tickData st.cursor with
    | none => simp [serverStep, isCompleteAt, h]
    | some s =>
      by_cases hn : n ≤ s.length
      · simp [serverStep, isCompleteAt, h, hn]
      · simp [serverStep, isCompleteAt, h, hn]

theorem slotAt_concat (td : TickData) (s : Slot) :
    slotAt (td ++ [some s]) td.length = some s := by
  unfold slotAt
  rw [List.get?_concat_length]
  rfl

/-- C7 (counterexample): a raw payload of 2 bytes — not the fixed 3-byte
width — is accepted and recorded verbatim by both variants; no code path
rejects it. -/
theorem c7_malformed_payload_recorded :
    recordedIntent (send_tick_data_v1 [] 7 0 [7, 8]) 0 7 = some [7, 8] ∧
    recordedIntent (send_tick_data_v2 [] 7 0 [7, 8]) 0 7 = some [7, 8] := by
  decide

/-- C7 (amended): submissions are recorded regardless of payload byte
length (there is no width check in `send_tick_data`); the fixed 3-byte
width is imposed only at dispatch, where each delivered record is
`tick[id][k] ?? 0` for k = 0, 1, 2 — missing bytes read as 0 and bytes
past index 2 are never delivered.  No error is raised either way. -/
theorem c7_no_width_check (td : TickData) (gid : Nat) (b : List Nat) :
    recordedIntent (send_tick_data_v1 td gid td.length b) td.length gid = some b ∧
    recordedIntent (send_tick_data_v2 td gid td.length b) td.length gid = some b ∧
    (pad3 b).length = 3 ∧
    (∀ k, k < 3 → (pad3 b).getD k 0 = b.getD k 0) ∧
    pad3 (b.take 3) = pad3 b := by
  refine ⟨?_, ?_, rfl, ?_, ?_⟩
  · rw [send_tick_data_v1_append td gid b]
    unfold recordedIntent
    rw [slotAt_concat]
    simp [objLookup_objSet_self]
  · rw [send_tick_data_v2_append td gid b]
    unfold recordedIntent
    rw [slotAt_concat]
    simp [objLookup_objSet_self]
  · intro k hk
    interval_cases k <;> rfl
  · unfold pad3
    congr 1 <;> try rfl
    · simp [List.getD, List.get?_take]
    · congr 1 <;> simp [List.getD, List.get?_take]

/-- Witness for the amended C7 at a concrete input: the 2-byte payload
[7, 8] is recorded as submitted, and its dispatched third byte is 0. -/
theorem c7_no_width_check_witness :
    recordedIntent (send_tick_data_v1 [] 7 0 [7, 8]) 0 7 = some [7, 8] ∧
    (pad3 [7, 8]).getD 2 0 = 0 := by
  have h := c7_no_width_check [] 7 [7, 8]
  exact ⟨h.1, (h.2.2.2.1 2 (by decide)).trans (by decide)⟩

/-- C8 (counterexample): `start_round` of the second variant assigns both
of two guests the same id — the current registry length (here 2, with two
earlier `send_game` registrations) — so the registered ids are neither
distinct nor the dense ascending sequence 0, 1 that the claim requires. -/
theorem c8_v2_round_ids_not_distinct :
    startRoundIdsV2 2 2 = [2, 2] ∧ ¬ (startRoundIdsV2 2 2).Nodup := by
  exact ⟨rfl, by decide⟩

/-- C8 (amended): `start_round` of the first variant assigns the dense
ascending distinct ids 0, ..., n-1, and `send_game` of the second variant
assigns sequential registry-length ids (each registration gets the next
integer, never reusing one); but `start_round` of the second variant
assigns every guest the same id — the current registry length — so after
it the registered guests of that variant do not hold distinct ids. -/
theorem c8_id_assignment (n mapLen gamePtr gamePtr2 : Nat) (map : List Nat) :
    (startRoundIdsV1 n).length = n ∧
    (startRoundIdsV1 n).Nodup ∧
    (∀ k, k < n → (startRoundIdsV1 n).getD k 0 = k) ∧
    (send_game map gamePtr).1 = map.length ∧
    (send_game (send_game map gamePtr).2 gamePtr2).1 = map.length + 1 ∧
    (startRoundIdsV2 n mapLen).length = n ∧
    (∀ k, k < n → (startRoundIdsV2 n mapLen).getD k 0 = mapLen) ∧
    (2 ≤ n → ¬ (startRoundIdsV2 n mapLen).Nodup) := by
  refine ⟨List.length_range n, List.nodup_range n, ?_, rfl, ?_, List.length_replicate n mapLen,
    ?_, ?_⟩
  · intro k hk
    unfold startRoundIdsV1
    rw [List.getD_eq_get _ _ (by simpa using hk)]
    simp
  · simp [send_game]
  · intro k hk
    unfold startRoundIdsV2
    rw [List.getD_eq_get _ _ (by simpa using hk)]
    simp
  · intro hn
    unfold startRoundIdsV2
    rw [List.nodup_replicate]
    omega

/-- Witness for the amended C8 at concrete inputs. -/
theorem c8_id_assignment_witness :
    (startRoundIdsV1 2).getD 1 0 = 1 ∧
    (send_game (send_game [] 100).2 101).1 = 1 ∧
    ¬ (startRoundIdsV2 2 2).Nodup := by
  have h := c8_id_assignment 2 2 100 101 []
  exact ⟨h.2.2.1 1 (by decide), h.2.2.2.2.1, h.2.2.2.2.2.2.2 (by decide)⟩

/-! ### Lemmas about the fan-out -/

theorem mem_otherIds (n i j : Nat) : j ∈ otherIds n i ↔ (j < n ∧ j ≠ i) := by
  unfold otherIds
  simp [List.mem_filter, List.mem_range]

theorem otherIds_sorted (n i : Nat) : (otherIds n i).Sorted (· < ·) :=
  List.Pairwise.sublist (List.filter_sublist _) (List.pairwise_lt_range n)

theorem otherIds_length (n i : Nat) (h : i < n) : (otherIds n i).length = n - 1 := by
  induction n with
  | zero => exact absurd h (Nat.not_lt_zero i)
  | succ m ih =>
    unfold otherIds at ih ⊢
    rw [List.range_succ, List.filter_append]
    by_cases hi : i < m
    · have hm : (m != i) = true := by simp; omega
      rw [List.length_append, ih hi]
      simp [hm]
      omega
    · have him : i = m := by omega
      subst him
      have hii : (i != i) = false := by simp
      have hall : (List.range i).filter (fun j => j != i) = List.range i := by
        apply List.filter_eq_self.mpr
        intro a ha
        simp [List.mem_range] at ha
        simp
        omega
      rw [hall, List.length_append, List.length_range]
      simp [hii]

theorem flatMap_congr_mem {α β : Type} (l : List α) (f g : α → List β)
    (h : ∀ a ∈ l, f a = g a) : l.flatMap f = l.flatMap g := by
  induction l with
  | nil => rfl
  | cons a t ih =>
    rw [List.flatMap_cons, List.flatMap_cons, h a (List.mem_cons_self a t),
      ih (fun x hx => h x (List.mem_cons_of_mem a hx))]

theorem flatMap_three_length {α : Type} (l : List α) (f : α → List Nat)
    (h : ∀ a ∈ l, (f a).length = 3) : (l.flatMap f).length = 3 * l.length := by
  induction l with
  | nil => rfl
  | cons a t ih =>
    rw [List.flatMap_cons, List.length_append, h a (List.mem_cons_self a t),
      ih (fun x hx => h x (List.mem_cons_of_mem a hx)), List.length_cons]
    omega

theorem dispatchIntents_length (s : Slot) (n i : Nat) (h : i < n) :
    (dispatchIntents s n i).length = 3 * (n - 1) := by
  unfold dispatchIntents
  have h3 := flatMap_three_length (otherIds n i)
    (fun j => pad3 ((objLookup s j).getD [])) (fun a _ => rfl)
  rw [h3, otherIds_length n i h]

/-- C4: the payload delivered to guest `i` at a completed tick never
contains `i` itself: the delivered other_ids are exactly the registered
ids below `n` other than `i`, in ascending registry order; the delivered
intents depend only on the entries of the other guests (overwriting the
own entry of guest `i` leaves them unchanged) and consist of one 3-byte
record per other guest, positionally aligned. -/
theorem c4_self_exclusion (s : Slot) (n i : Nat) (b : List Nat) (h : i < n) :
    i ∉ otherIds n i ∧
    (∀ j, j ∈ otherIds n i ↔ (j < n ∧ j ≠ i)) ∧
    (otherIds n i).Sorted (· < ·) ∧
    (otherIds n i).length = n - 1 ∧
    dispatchIntents (objSet s i b) n i = dispatchIntents s n i ∧
    (dispatchIntents s n i).length = 3 * (n - 1) := by
  refine ⟨fun hc => ((mem_otherIds n i i).mp hc).2 rfl, mem_otherIds n i,
    otherIds_sorted n i, otherIds_length n i h, ?_, dispatchIntents_length s n i h⟩
  unfold dispatchIntents
  apply flatMap_congr_mem
  intro j hj
  rw [objLookup_objSet_ne s i j b ((mem_otherIds n i j).mp hj).2]

/-- Witness for C4 at a concrete input: with 2 guests, receiver 0 is not
among the delivered ids, and replacing the own recorded intent of receiver 0
does not change what it receives. -/
theorem c4_self_exclusion_witness :
    0 ∉ otherIds 2 0 ∧
    (otherIds 2 0).length = 2 - 1 ∧
    dispatchIntents (objSet [(0, [9, 9, 9]), (1, [4, 5, 6])] 0 [7, 7, 7]) 2 0 =
      dispatchIntents [(0, [9, 9, 9]), (1, [4, 5, 6])] 2 0 ∧
    (dispatchIntents [(0, [9, 9, 9]), (1, [4, 5, 6])] 2 0).length = 3 * (2 - 1) := by
  have h := c4_self_exclusion [(0, [9, 9, 9]), (1, [4, 5, 6])] 2 0 [7, 7, 7] (by decide)
  exact ⟨h.1, h.2.2.2.1, h.2.2.2.2.1, h.2.2.2.2.2⟩

/-! ### Density of the tick buffer -/

theorem slotAt_none_get (td : TickData) (t : Nat) (hlt : t < td.length)
    (hs : slotAt td t = none) : td.get? t = some none := by
  unfold slotAt at hs
  cases hg : td.get? t with
  | none =>
    rw [List.get?_eq_none] at hg
    omega
  | some o =>
    rw [hg] at hs
    cases o with
    | none => rfl
    | some s => simp at hs

theorem send_tick_data_v1_hole (td : TickData) (gid t : Nat) (b : List Nat)
    (hlt : t < td.length) (hs : slotAt td t = none) :
    send_tick_data_v1 td gid t b = td := by
  unfold send_tick_data_v1
  rw [if_neg (by omega)]
  have hne : (t == td.length) = false := beq_eq_false_iff_ne.mpr (Nat.ne_of_lt hlt)
  simp only [hne, Bool.false_eq_true, if_false, slotAt_none_get td t hlt hs]

theorem send_tick_data_v2_hole (td : TickData) (gid t : Nat) (b : List Nat)
    (hlt : t < td.length) (hs : slotAt td t = none) :
    send_tick_data_v2 td gid t b = td := by
  unfold send_tick_data_v2
  rw [if_neg (by omega)]
  have hne : (t == td.length) = false := beq_eq_false_iff_ne.mpr (Nat.ne_of_lt hlt)
  simp only [hne, Bool.false_eq_true, if_false, slotAt_none_get td t hlt hs]

theorem serverStep_fst_tickData (n : Nat) (st : RelayState) :
    (serverStep n st).1.tickData = st.tickData := by
  cases h : slotAt st.tickData st.cursor with
  | none => simp [serverStep, h]
  | some s =>
    by_cases hn : n ≤ s.length <;> simp [serverStep, h, hn]

theorem noHoles_send_v1 (td : TickData) (gid t : Nat) (b : List Nat)
    (h : ∀ o ∈ td, o.isSome) : ∀ o ∈ send_tick_data_v1 td gid t b, o.isSome := by
  rcases Nat.lt_trichotomy t td.length with hlt | heq | hgt
  · cases hs : slotAt td t with
    | some s =>
      rw [send_tick_data_v1_existing td gid t b s hs]
      intro o ho
      rcases List.mem_or_eq_of_mem_set ho with hm | he
      · exact h o hm
      · rw [he]; rfl
    | none =>
      rw [send_tick_data_v1_hole td gid t b hlt hs]
      exact h
  · subst heq
    rw [send_tick_data_v1_append td gid b]
    intro o ho
    rcases List.mem_append.mp ho with hm | hm
    · exact h o hm
    · rw [List.mem_singleton.mp hm]; rfl
  · rw [send_tick_data_v1_future td gid t b hgt]
    exact h

theorem noHoles_send_v2 (td : TickData) (gid t : Nat) (b : List Nat)
    (h : ∀ o ∈ td, o.isSome) : ∀ o ∈ send_tick_data_v2 td gid t b, o.isSome := by
  rcases Nat.lt_trichotomy t td.length with hlt | heq | hgt
  · cases hs : slotAt td t with
    | some s =>
      by_cases hhas : objHas s gid = true
      · rw [send_tick_data_v2_existing_dup td gid t b s hs hhas]
        exact h
      · rw [send_tick_data_v2_existing_new td gid t b s hs (by simpa using hhas)]
        intro o ho
        rcases List.mem_or_eq_of_mem_set ho with hm | he
        · exact h o hm
        · rw [he]; rfl
    | none =>
      rw [send_tick_data_v2_hole td gid t b hlt hs]
      exact h
  · subst heq
    rw [send_tick_data_v2_append td gid b]
    intro o ho
    rcases List.mem_append.mp ho with hm | hm
    · exact h o hm
    · rw [List.mem_singleton.mp hm]; rfl
  · rw [send_tick_data_v2_future td gid t b hgt]
    exact h

theorem reachable_noHoles (st : RelayState) (h : Reachable st) :
    ∀ o ∈ st.tickData, o.isSome := by
  induction h with
  | init => intro o ho; simp [startRoundState] at ho
  | step hr hs ih =>
    cases hs with
    | submit1 gid t b => exact noHoles_send_v1 _ gid t b ih
    | submit2 gid t b => exact noHoles_send_v2 _ gid t b ih
    | sched n =>
      intro o ho
      rw [serverStep_fst_tickData] at ho
      exact ih o ho

theorem send_v1_length_bounds (td : TickData) (gid t : Nat) (b : List Nat) :
    td.length ≤ (send_tick_data_v1 td gid t b).length ∧
    (send_tick_data_v1 td gid t b).length ≤ td.length + 1 := by
  rcases Nat.lt_trichotomy t td.length with hlt | heq | hgt
  · cases hs : slotAt td t with
    | some s =>
      rw [send_tick_data_v1_existing td gid t b s hs, List.length_set]
      omega
    | none =>
      rw [send_tick_data_v1_hole td gid t b hlt hs]
      omega
  · subst heq
    rw [send_tick_data_v1_append td gid b, List.length_append]
    simp
  · rw [send_tick_data_v1_future td gid t b hgt]
    omega

theorem send_v2_length_bounds (td : TickData) (gid t : Nat) (b : List Nat) :
    td.length ≤ (send_tick_data_v2 td gid t b).length ∧
    (send_tick_data_v2 td gid t b).length ≤ td.length + 1 := by
  rcases Nat.lt_trichotomy t td.length with hlt | heq | hgt
  · cases hs : slotAt td t with
    | some s =>
      by_cases hhas : objHas s gid = true
      · rw [send_tick_data_v2_existing_dup td gid t b s hs hhas]
        omega
      · rw [send_tick_data_v2_existing_new td gid t b s hs (by simpa using hhas),
          List.length_set]
        omega
    | none =>
      rw [send_tick_data_v2_hole td gid t b hlt hs]
      omega
  · subst heq
    rw [send_tick_data_v2_append td gid b, List.length_append]
    simp
  · rw [send_tick_data_v2_future td gid t b hgt]
    omega

theorem get?_append_lt (td : TickData) (x : Option Slot) (i : Nat) (h : i < td.length) :
    (td ++ [x]).get? i = td.get? i :=
  List.get?_append h

theorem send_v1_preserves_other (td : TickData) (gid t : Nat) (b : List Nat)
    (i : Nat) (hne : i ≠ t) :
    (send_tick_data_v1 td gid t b).get? i = td.get? i := by
  rcases Nat.lt_trichotomy t td.length with hlt | heq | hgt
  · cases hs : slotAt td t with
    | some s =>
      rw [send_tick_data_v1_existing td gid t b s hs]
      exact List.get?_set_ne _ _ (fun hc => hne hc.symm)
    | none =>
      rw [send_tick_data_v1_hole td gid t b hlt hs]
  · subst heq
    rw [send_tick_data_v1_append td gid b]
    rcases Nat.lt_or_ge i td.length with hi | hi
    · exact get?_append_lt td _ i hi
    · have h1 : (td ++ [some (objSet [] gid b)] : TickData).get? i = none := by
        rw [List.get?_eq_none, List.length_append]
        simp only [List.length_singleton]
        omega
      have h2 : td.get? i = none := List.get?_eq_none.mpr (by omega)
      rw [h1, h2]
  · rw [send_tick_data_v1_future td gid t b hgt]

theorem send_v2_preserves_other (td : TickData) (gid t : Nat) (b : List Nat)
    (i : Nat) (hne : i ≠ t) :
    (send_tick_data_v2 td gid t b).get? i = td.get? i := by
  rcases Nat.lt_trichotomy t td.length with hlt | heq | hgt
  · cases hs : slotAt td t with
    | some s =>
      by_cases hhas : objHas s gid = true
      · rw [send_tick_data_v2_existing_dup td gid t b s hs hhas]
      · rw [send_tick_data_v2_existing_new td gid t b s hs (by simpa using hhas)]
        exact List.get?_set_ne _ _ (fun hc => hne hc.symm)
    | none =>
      rw [send_tick_data_v2_hole td gid t b hlt hs]
  · subst heq
    rw [send_tick_data_v2_append td gid b]
    rcases Nat.lt_or_ge i td.length with hi | hi
    · exact get?_append_lt td _ i hi
    · have h1 : (td ++ [some (objSet [] gid b)] : TickData).get? i = none := by
        rw [List.get?_eq_none, List.length_append]
        simp only [List.length_singleton]
        omega
      have h2 : td.get? i = none := List.get?_eq_none.mpr (by omega)
      rw [h1, h2]
  · rw [send_tick_data_v2_future td gid t b hgt]

/-- C9: in every state reachable from round start by submissions (either
variant, any guest id) and scheduler firings, the tick buffer has no
holes (every slot below the length exists); and the buffer is
append-only: a submission grows the length by at most one and leaves the
entry at every other index untouched (never removing or reordering
slots). -/
theorem c9_density_append_only (st : RelayState) (h : Reachable st) :
    (∀ o ∈ st.tickData, o.isSome) ∧
    (∀ td gid t b, td.length ≤ (send_tick_data_v1 td gid t b).length ∧
      (send_tick_data_v1 td gid t b).length ≤ td.length + 1 ∧
      ∀ i, i ≠ t → (send_tick_data_v1 td gid t b).get? i = td.get? i) ∧
    (∀ td gid t b, td.length ≤ (send_tick_data_v2 td gid t b).length ∧
      (send_tick_data_v2 td gid t b).length ≤ td.length + 1 ∧
      ∀ i, i ≠ t → (send_tick_data_v2 td gid t b).get? i = td.get? i) := by
  refine ⟨reachable_noHoles st h, ?_, ?_⟩
  · intro td gid t b
    exact ⟨(send_v1_length_bounds td gid t b).1, (send_v1_length_bounds td gid t b).2,
      send_v1_preserves_other td gid t b⟩
  · intro td gid t b
    exact ⟨(send_v2_length_bounds td gid t b).1, (send_v2_length_bounds td gid t b).2,
      send_v2_preserves_other td gid t b⟩

/-- Witness for C9: the no-holes invariant evaluated in the concrete
reachable state after one submission, plus a concrete append-only fact. -/
theorem c9_density_append_only_witness :
    Option.isSome (some ([(0, [1])] : Slot)) = true ∧
    (send_tick_data_v1 [] 0 0 [1]).length ≤ ([] : TickData).length + 1 := by
  have h := c9_density_append_only (submitV1 startRoundState 0 0 [1])
    (Reachable.step Reachable.init (RStep.submit1 startRoundState 0 0 [1]))
  exact ⟨h.1 (some [(0, [1])]) (by decide), (h.2.1 [] 0 0 [1]).2.1⟩

theorem flatMap_three_drop (l : List Nat) (f : Nat → List Nat) (m : Nat)
    (hf : ∀ a, (f a).length = 3) :
    (l.flatMap f).drop (3 * m) = (l.drop m).flatMap f := by
  induction m generalizing l with
  | zero => simp
  | succ k ih =>
    cases l with
    | nil => simp
    | cons a t =>
      rw [List.flatMap_cons]
      have h3 : 3 * (k + 1) = (f a).length + 3 * k := by rw [hf a]; ring
      rw [h3, List.drop_append, ih t]
      rfl

/-- C10: each record in the intents buffer dispatched to guest `i` is
exactly 3 bytes: the buffer has length 3 * (n - 1), and the m-th 3-byte
block equals `[b[0] ?? 0, b[1] ?? 0, b[2] ?? 0]` where `b` is the
stored submission of the m-th other guest — missing bytes are delivered as 0 and
submitted bytes past index 2 are never delivered. -/
theorem c10_fixed_width (s : Slot) (n i m : Nat) (b : List Nat)
    (hi : i < n) (hm : m < n - 1)
    (hb : objLookup s ((otherIds n i).getD m 0) = some b) :
    (dispatchIntents s n i).length = 3 * (n - 1) ∧
    ((dispatchIntents s n i).drop (3 * m)).take 3 =
      [b.getD 0 0, b.getD 1 0, b.getD 2 0] := by
  refine ⟨dispatchIntents_length s n i hi, ?_⟩
  unfold dispatchIntents
  rw [flatMap_three_drop (otherIds n i)
    (fun j => pad3 ((objLookup s j).getD [])) m (fun a => rfl)]
  have hlen : m < (otherIds n i).length := by rw [otherIds_length n i hi]; omega
  rw [List.drop_eq_getElem_cons hlen, List.flatMap_cons]
  have hfix : (otherIds n i)[m] = (otherIds n i).getD m 0 :=
    (List.getD_eq_getElem _ _ hlen).symm
  rw [hfix, hb, Option.getD_some]
  have h3 : (3 : Nat) = (pad3 b).length := rfl
  rw [h3, List.take_left]
  rfl

/-- Witness for C10 at a concrete input: one other guest whose stored
submission has 4 bytes; the delivered record is its first 3 bytes. -/
theorem c10_fixed_width_witness :
    (dispatchIntents [(1, [4, 5, 6, 7])] 2 0).length = 3 * (2 - 1) ∧
    ((dispatchIntents [(1, [4, 5, 6, 7])] 2 0).drop (3 * 0)).take 3 = [4, 5, 6] := by
  have h := c10_fixed_width [(1, [4, 5, 6, 7])] 2 0 0 [4, 5, 6, 7]
    (by decide) (by decide) (by decide)
  exact ⟨h.1, h.2.trans (by decide)⟩
